import Mathlib

/-!
Shallow embedding of the Tele-Clone-Render conversation/message core:
the relational data model (shared/schema.ts), the store operations of
`DatabaseStorage` (server/storage.ts), the relevant REST handler fragments
(server/routes.ts), and the WebSocket fan-out hub (server/routes.ts).

Timestamps are modelled as `Nat` (milliseconds, `Date.getTime()`); the
database clock `now` strictly increases on every insert, modelling the
`defaultNow()` column defaults with the monotonicity the persistence layer
provides.  SQL `ORDER BY` and JS `Array.prototype.sort` (stable per the
ECMAScript spec) are embedded as a stable insertion sort `sortOrd`.
-/

namespace TeleClone

/-- A row of the `users` table.  The auth model file itself is not part of
the core sources; the fields are the ones the core reads
(`users.id`, `users.email`, `users.firstName`, `users.lastName`). -/
structure User where
  id : String
  email : String
  firstName : String
  lastName : String
deriving Repr, DecidableEq

/-- A row of the `conversations` table (shared/schema.ts). -/
structure Conversation where
  id : Nat
  name : Option String
  isGroup : Bool
  createdAt : Nat
deriving Repr, DecidableEq

/-- A row of the `conversation_members` table (shared/schema.ts). -/
structure ConversationMember where
  id : Nat
  conversationId : Nat
  userId : String
  joinedAt : Nat
deriving Repr, DecidableEq

/-- A row of the `messages` table (shared/schema.ts). -/
structure Message where
  id : Nat
  conversationId : Nat
  senderId : String
  content : String
  createdAt : Nat
deriving Repr, DecidableEq

/-- A row of the `contacts` table (shared/schema.ts). -/
structure Contact where
  id : Nat
  userId : String
  contactId : String
  createdAt : Nat
deriving Repr, DecidableEq

/-- The relational store.  Tables are lists in physical (insertion) order;
`next…Id` model the `serial` primary-key sequences and `now` the database
clock used by `defaultNow()`. -/
structure DB where
  users : List User
  conversations : List Conversation
  conversationMembers : List ConversationMember
  messages : List Message
  contacts : List Contact
  nextConvId : Nat
  nextMemberId : Nat
  nextMessageId : Nat
  nextContactId : Nat
  now : Nat
deriving Repr, DecidableEq

/-- The empty database, sequences starting at 1 as `serial` does. -/
def emptyDB : DB :=
  { users := [], conversations := [], conversationMembers := [], messages := []
  , contacts := [], nextConvId := 1, nextMemberId := 1, nextMessageId := 1
  , nextContactId := 1, now := 1000 }

/-! ## Stable sorting (the embedding of SQL ORDER BY and JS Array.sort)

Both Postgres ORDER BY (as determinized here) and JS `Array.prototype.sort`
are modelled as a stable sort with respect to a strict comparator
`lt a b = true` meaning "a must come strictly before b"; elements the
comparator does not separate keep their original relative order. -/

/-- Stable insertion into a sorted list: `a` goes after every element that
must precede it and before the first element it need not follow. -/
def insertOrd (lt : α → α → Bool) (a : α) : List α → List α
  | [] => [a]
  | b :: l => if lt b a then b :: insertOrd lt a l else a :: b :: l

/-- Stable insertion sort with strict comparator `lt`. -/
def sortOrd (lt : α → α → Bool) : List α → List α
  | [] => []
  | a :: l => insertOrd lt a (sortOrd lt l)

/-! ## Store operations (server/storage.ts, class DatabaseStorage) -/

/-- Store operation `getContacts(userId)`: select contacts where userId matches, inner join
users on `contacts.contactId = users.id`. -/
def getContacts (db : DB) (userId : String) : List User :=
  (db.contacts.filter (fun c => c.userId == userId)).filterMap
    (fun c => db.users.find? (fun u => u.id == c.contactId))

/-- Store operation `addContact(userId, contactUsername)`: resolve by email; throw
"User not found" when no match; throw "Cannot add yourself as a contact"
when the resolved user is the caller; return the existing contact if the
edge already exists; otherwise insert the edge.  `Except.error` carries the
thrown `Error`'s message. -/
def addContact (db : DB) (userId contactUsername : String) :
    Except String (DB × User) :=
  match db.users.find? (fun u => u.email == contactUsername) with
  | none => .error "User not found"
  | some contactUser =>
    if contactUser.id == userId then
      .error "Cannot add yourself as a contact"
    else
      match db.contacts.find?
          (fun c => c.userId == userId && c.contactId == contactUser.id) with
      | some _ => .ok (db, contactUser)
      | none =>
        .ok ({ db with
                contacts := db.contacts ++
                  [{ id := db.nextContactId, userId := userId
                   , contactId := contactUser.id, createdAt := db.now }]
                nextContactId := db.nextContactId + 1
                now := db.now + 1 }, contactUser)

/-- Store operation `getConversation(id)`: the conversation row, if present, together with
its member list (membership rows joined to users). -/
def getConversation (db : DB) (id : Nat) :
    Option (Conversation × List User) :=
  match db.conversations.find? (fun c => c.id == id) with
  | none => none
  | some conversation =>
    some (conversation,
      (db.conversationMembers.filter (fun m => m.conversationId == id)).filterMap
        (fun m => db.users.find? (fun u => u.id == m.userId)))

/-- First phase of `createConversation`: the `INSERT INTO conversations`
statement (`isGroup = false`, name absent, `createdAt = now()`). -/
def insertConversationRow (db : DB) : DB × Conversation :=
  let conv : Conversation :=
    { id := db.nextConvId, name := none, isGroup := false, createdAt := db.now }
  ({ db with conversations := db.conversations ++ [conv]
           , nextConvId := db.nextConvId + 1, now := db.now + 1 }, conv)

/-- Second phase of `createConversation`: the single `INSERT INTO
conversation_members` statement carrying both membership rows. -/
def insertMembershipRows (db : DB) (convId : Nat) (userId participantId : String) : DB :=
  { db with
      conversationMembers := db.conversationMembers ++
        [ { id := db.nextMemberId, conversationId := convId
          , userId := userId, joinedAt := db.now }
        , { id := db.nextMemberId + 1, conversationId := convId
          , userId := participantId, joinedAt := db.now } ]
      nextMemberId := db.nextMemberId + 2
      now := db.now + 1 }

/-- Store operation `createConversation(userId, participantId)`, failure-free path: the two
inserts run in sequence. -/
def createConversation (db : DB) (userId participantId : String) :
    DB × Conversation :=
  let r := insertConversationRow db
  (insertMembershipRows r.1 r.2.id userId participantId, r.2)

/-- Store operation `createConversation` with the persistence layer allowed to fail the
second statement.  The source runs the two inserts as two independent
awaited statements with no surrounding transaction, so when the membership
insert fails the conversation row stays committed: the observable database
is the post-phase-1 state and no rollback happens.  Returns the observable
database and `some conversation` on success, `none` when the call threw. -/
def createConversationRun (db : DB) (userId participantId : String)
    (memberInsertFails : Bool) : DB × Option Conversation :=
  let r := insertConversationRow db
  if memberInsertFails then (r.1, none)
  else (insertMembershipRows r.1 r.2.id userId participantId, some r.2)

/-- Store operation `createMessage(senderId, conversationId, content)`: one insert with
server-assigned `createdAt`. -/
def createMessage (db : DB) (senderId : String) (conversationId : Nat)
    (content : String) : DB × Message :=
  let msg : Message :=
    { id := db.nextMessageId, conversationId := conversationId
    , senderId := senderId, content := content, createdAt := db.now }
  ({ db with messages := db.messages ++ [msg]
           , nextMessageId := db.nextMessageId + 1, now := db.now + 1 }, msg)

/-- The rows of `messages` belonging to one conversation, in table order. -/
def convMessages (db : DB) (conversationId : Nat) : List Message :=
  db.messages.filter (fun m => m.conversationId == conversationId)

/-- Inner join of a message list with `users` on `senderId = users.id`. -/
def joinSenders (db : DB) (l : List Message) : List (Message × User) :=
  l.filterMap (fun m => (db.users.find? (fun u => u.id == m.senderId)).map
    (fun u => (m, u)))

/-- Store operation `getMessages(conversationId, limit = 50, offset = 0)`: filter by
conversation, join senders, `ORDER BY createdAt ASC`, offset, limit. -/
def getMessages (db : DB) (conversationId : Nat)
    (limit : Nat := 50) (offset : Nat := 0) : List (Message × User) :=
  ((sortOrd (fun a b => a.1.createdAt < b.1.createdAt)
      (joinSenders db (convMessages db conversationId))).drop offset).take limit

/-- SQL `LIKE '%query%'` over a text column (Postgres `like` is
case-sensitive): substring containment. -/
def likeContains (field query : String) : Bool :=
  decide (query.data <:+: field.data)

/-- Store operation `searchUsers(query)`: `LIKE %query%` over email, firstName, lastName,
`LIMIT 10`. -/
def searchUsers (db : DB) (query : String) : List User :=
  (db.users.filter (fun u =>
    likeContains u.email query || likeContains u.firstName query ||
    likeContains u.lastName query)).take 10

/-! ## Conversation summaries (`getConversations`) -/

/-- An enriched conversation summary as assembled by `getConversations`. -/
structure ConvSummary where
  conv : Conversation
  lastMessage : Option Message
  unreadCount : Nat
  otherMember : Option User
deriving Repr, DecidableEq

/-- The query `ORDER BY messages.createdAt DESC LIMIT 1` over one conversation's
messages: the enrichment step's last-message lookup. -/
def lastMessageOf (db : DB) (conversationId : Nat) : Option Message :=
  (sortOrd (fun a b => b.createdAt < a.createdAt)
    (convMessages db conversationId)).head?

/-- The sort key the source's final `.sort` comparator computes:
`a.lastMessage?.createdAt.getTime() || a.createdAt.getTime()` — the `||`
falls back to the conversation's creation time both when there is no last
message and when the last message's time is `0` (falsy). -/
def codeEffTs (s : ConvSummary) : Nat :=
  match s.lastMessage with
  | some m => if m.createdAt = 0 then s.conv.createdAt else m.createdAt
  | none => s.conv.createdAt

/-- Store operation `getConversations(userId)`: membership lookup, conversation fetch
ordered by creation time descending, enrichment with last message /
other member / stubbed `unreadCount`, then the final sort descending by
the `||`-fallback effective timestamp. -/
def getConversations (db : DB) (userId : String) : List ConvSummary :=
  let memberships := db.conversationMembers.filter (fun m => m.userId == userId)
  let conversationIds := memberships.map (fun m => m.conversationId)
  if conversationIds.isEmpty then []
  else
    let userConversations :=
      sortOrd (fun a b => b.createdAt < a.createdAt)
        (db.conversations.filter (fun c => conversationIds.contains c.id))
    let enriched := userConversations.map (fun conv =>
      ({ conv := conv,
         lastMessage := lastMessageOf db conv.id,
         unreadCount := 0,
         otherMember :=
          if conv.isGroup then none
          else
            ((db.conversationMembers.filter (fun m =>
                m.conversationId == conv.id && m.userId != userId)).head?).bind
              (fun m => db.users.find? (fun u => u.id == m.userId)) } : ConvSummary))
    sortOrd (fun a b => codeEffTs b < codeEffTs a) enriched

/-- The specification's effective timestamp: the last message's creation
time when a message exists, the conversation's creation time otherwise
(no falsy-zero fallback).  Stated from the spec for comparison with
`codeEffTs`. -/
def specEffTs (s : ConvSummary) : Nat :=
  match s.lastMessage with
  | some m => m.createdAt
  | none => s.conv.createdAt

/-! ## REST surface fragments (server/routes.ts) -/

/-- JavaScript `parseInt` on a base-10 string: optional sign, then the
leading run of digits; `none` models `NaN` (no digits). -/
def parseIntJS (s : String) : Option Int :=
  let rest : List Char :=
    match s.data with
    | '-' :: r => r
    | '+' :: r => r
    | r => r
  let digits := rest.takeWhile (fun ch => ch.isDigit)
  if digits.isEmpty then none
  else
    let n : Nat := digits.foldl (fun acc ch => acc * 10 + (ch.toNat - 48)) 0
    some (match s.data with
          | '-' :: _ => -(n : Int)
          | _ => (n : Int))

/-- The limit the GET messages handler computes:
`req.query.limit ? parseInt(req.query.limit as string) : 50`.
`none` models an absent query parameter; the empty string is falsy and
also falls back to 50.  The computed value is handed to
`storage.getMessages` with no further check. -/
def messagesListLimit (limitQ : Option String) : Option Int :=
  match limitQ with
  | some s => if s.isEmpty then some 50 else parseIntJS s
  | none => some 50

/-- The offset the GET messages handler computes:
`req.query.offset ? parseInt(req.query.offset as string) : 0`. -/
def messagesListOffset (offsetQ : Option String) : Option Int :=
  match offsetQ with
  | some s => if s.isEmpty then some 0 else parseIntJS s
  | none => some 0

/-- The POST /api/contacts handler: calls `storage.addContact` and responds
201 on success; the surrounding `catch` maps every thrown `Error` —
including the store's "User not found" — to status 400 with the error's
message.  Returns the HTTP status and the error body's message (`none` on
success). -/
def postContactsHandler (db : DB) (userId username : String) :
    Nat × Option String :=
  match addContact db userId username with
  | .ok _ => (201, none)
  | .error msg => (400, some msg)

/-! ## Push fan-out hub (server/routes.ts, WebSocket section) -/

/-- A WebSocket connection handle.  Each physical connection gets a fresh
handle; handles are never reused across connections. -/
abbrev ConnId := Nat

/-- The envelope `JSON.stringify({ type: "message:new", data: message })`
sent by `broadcastMessage`. -/
structure Envelope where
  type : String
  data : Message
deriving Repr, DecidableEq

/-- Hub state: `clients` is the `Map<number, Set<WebSocket>>` (association
list in insertion order, each set a duplicate-free list in insertion
order); `connConv` is the `(ws as any).conversationId` field recorded per
connection at join time; `openConns` is the set of connections whose
`readyState` is `OPEN`. -/
structure Hub where
  clients : List (Nat × List ConnId)
  connConv : List (ConnId × Nat)
  openConns : List ConnId
deriving Repr, DecidableEq

/-- JS `Map.get` on an association list. -/
def assocGet (l : List (Nat × α)) (k : Nat) : Option α :=
  (l.find? (fun p => p.1 == k)).map (fun p => p.2)

/-- JS `Map.set` on an association list: replace in place, else append. -/
def assocSet (l : List (Nat × α)) (k : Nat) (v : α) : List (Nat × α) :=
  if (l.find? (fun p => p.1 == k)).isSome then
    l.map (fun p => if p.1 == k then (p.1, v) else p)
  else l ++ [(k, v)]

/-- JS `Set.add`: append unless already present (JS sets iterate in insertion
order and never hold duplicates). -/
def setAdd (s : List ConnId) (c : ConnId) : List ConnId :=
  if s.contains c then s else s ++ [c]

/-- A new physical connection: its transport becomes OPEN. -/
def hubConnect (h : Hub) (c : ConnId) : Hub :=
  { h with openConns := setAdd h.openConns c }

/-- The "join" signal handler: ensure the conversation's set exists, add
the connection to it, and overwrite the connection's tracked
`conversationId` used later for cleanup. -/
def hubJoin (h : Hub) (c : ConnId) (conversationId : Nat) : Hub :=
  let s := (assocGet h.clients conversationId).getD []
  { h with
      clients := assocSet h.clients conversationId (setAdd s c)
      connConv := assocSet h.connConv c conversationId }

/-- The "close" handler: the transport is no longer OPEN, and the
connection is removed from the set of the conversation recorded in its
tracked `conversationId` field — guarded by the source's
`if (conversationId && clients.has(conversationId))` (0 is falsy). -/
def hubClose (h : Hub) (c : ConnId) : Hub :=
  let h2 := { h with openConns := h.openConns.filter (fun x => x != c) }
  match assocGet h.connConv c with
  | none => h2
  | some conversationId =>
    if conversationId = 0 then h2
    else
      match assocGet h2.clients conversationId with
      | none => h2
      | some s =>
        { h2 with clients := assocSet h2.clients conversationId
                    (s.filter (fun x => x != c)) }

/-- The source function `broadcastMessage(conversationId, message)`: one envelope to every
connection in the conversation's set whose `readyState` is `OPEN`;
the hub state itself is untouched. -/
def publishDeliveries (h : Hub) (conversationId : Nat) (msg : Message) :
    List (ConnId × Envelope) :=
  match assocGet h.clients conversationId with
  | none => []
  | some s =>
    (s.filter (fun c => h.openConns.contains c)).map
      (fun c => (c, { type := "message:new", data := msg }))

/-- The hub's externally driven events. -/
inductive Event
  | connect (c : ConnId)
  | join (c : ConnId) (conversationId : Nat)
  | close (c : ConnId)
  | publish (conversationId : Nat) (msg : Message)
deriving Repr, DecidableEq

/-- One hub step: the successor state and the deliveries it performs. -/
def hubStep (h : Hub) : Event → Hub × List (ConnId × Envelope)
  | .connect c => (hubConnect h c, [])
  | .join c conversationId => (hubJoin h c conversationId, [])
  | .close c => (hubClose h c, [])
  | .publish conversationId m => (h, publishDeliveries h conversationId m)

/-- Run a sequence of hub events, collecting all deliveries in order. -/
def runEvents (h : Hub) : List Event → Hub × List (ConnId × Envelope)
  | [] => (h, [])
  | e :: es =>
    let r := hubStep h e
    let r2 := runEvents r.1 es
    (r2.1, r.2 ++ r2.2)

/-! ## Concrete fixtures -/

/-- A user fixture. -/
def alice : User :=
  { id := "u-alice", email := "Alice@example.com"
  , firstName := "Alice", lastName := "Smith" }

/-- A user fixture. -/
def bob : User :=
  { id := "u-bob", email := "bob@example.com"
  , firstName := "Bob", lastName := "Jones" }

/-- A two-user database. -/
def dbAB : DB := { emptyDB with users := [alice, bob] }

/-- Conversation fixture for the C4 counterexample. -/
def dbEpoch : DB :=
  { emptyDB with
      conversations :=
        [ { id := 1, name := none, isGroup := false, createdAt := 5 }
        , { id := 2, name := none, isGroup := false, createdAt := 3 } ]
      conversationMembers :=
        [ { id := 1, conversationId := 1, userId := "u-carol", joinedAt := 1 }
        , { id := 2, conversationId := 2, userId := "u-carol", joinedAt := 1 } ]
      messages :=
        [ { id := 1, conversationId := 1, senderId := "u-carol"
          , content := "old", createdAt := 0 }
        , { id := 2, conversationId := 2, senderId := "u-carol"
          , content := "new", createdAt := 2 } ]
      nextConvId := 3, nextMemberId := 3, nextMessageId := 3 }

/-- Id-freshness: every conversation row and every membership row carries a
conversation id below the `nextConvId` sequence value.  This holds of every
database the store builds, since conversation ids are drawn from the
sequence. -/
def FreshIds (db : DB) : Prop :=
  (∀ c ∈ db.conversations, c.id < db.nextConvId)
  ∧ (∀ m ∈ db.conversationMembers, m.conversationId < db.nextConvId)

instance (db : DB) : Decidable (FreshIds db) := by
  unfold FreshIds; infer_instance

/-- The database `dbAB` after "u-alice" adds "u-bob" as a contact. -/
def dbABedge : DB :=
  { dbAB with
      contacts := [{ id := 1, userId := "u-alice", contactId := "u-bob"
                   , createdAt := 1000 }]
      nextContactId := 2, now := 1001 }

/-- Database clock invariant: every stored message was created strictly
before `now`, and messages appear in the table in strictly increasing
creation-time order.  Every database reachable by the store's inserts
satisfies it, since each insert stamps the current clock and advances
it. -/
def ClockOK (db : DB) : Prop :=
  (∀ m ∈ db.messages, m.createdAt < db.now)
  ∧ db.messages.Pairwise (fun a b => a.createdAt < b.createdAt)

instance (db : DB) : Decidable (ClockOK db) := by
  unfold ClockOK; infer_instance

/-- Fold a sequence of `createMessage` calls (sender, content) on one
conversation, in order. -/
def applyCreates (db : DB) (conversationId : Nat) :
    List (String × String) → DB
  | [] => db
  | c :: cs =>
    applyCreates (createMessage db c.1 conversationId c.2).1 conversationId cs

/-- The message rows returned by the successive calls of `applyCreates`,
in call order. -/
def createdMsgs (db : DB) (conversationId : Nat) :
    List (String × String) → List Message
  | [] => []
  | c :: cs =>
    (createMessage db c.1 conversationId c.2).2 ::
      createdMsgs (createMessage db c.1 conversationId c.2).1 conversationId cs

/-! ## Lemmas about the stable sort -/

theorem mem_insertOrd {lt : α → α → Bool} {a y : α} (l : List α) :
    y ∈ insertOrd lt a l ↔ y = a ∨ y ∈ l := by
  induction l with
  | nil => simp [insertOrd]
  | cons b l ih =>
    simp only [insertOrd]
    split
    · simp only [List.mem_cons, ih]
      tauto
    · simp only [List.mem_cons]

theorem mem_sortOrd {lt : α → α → Bool} {y : α} (l : List α) :
    y ∈ sortOrd lt l ↔ y ∈ l := by
  induction l with
  | nil => simp [sortOrd]
  | cons a l ih => simp [sortOrd, mem_insertOrd, ih]

theorem pairwise_insertOrd {lt : α → α → Bool}
    (hasym : ∀ x y, lt x y = true → lt y x = false)
    (htrans : ∀ x y z, lt y x = false → lt z y = false → lt z x = false)
    (a : α) {l : List α} (h : l.Pairwise (fun x y => lt y x = false)) :
    (insertOrd lt a l).Pairwise (fun x y => lt y x = false) := by
  induction l with
  | nil => simp [insertOrd]
  | cons b l ih =>
    rcases List.pairwise_cons.mp h with ⟨hb, hl⟩
    simp only [insertOrd]
    split
    · rename_i hlt
      refine List.pairwise_cons.mpr ⟨?_, ih hl⟩
      intro y hy
      rcases (mem_insertOrd l).mp hy with rfl | hyl
      · exact hasym _ _ hlt
      · exact hb y hyl
    · rename_i hlt
      refine List.pairwise_cons.mpr ⟨?_, h⟩
      intro y hy
      rcases List.mem_cons.mp hy with rfl | hyl
      · exact Bool.not_eq_true _ ▸ eq_false_of_ne_true hlt
      · exact htrans a b y (eq_false_of_ne_true hlt) (hb y hyl)

theorem pairwise_sortOrd {lt : α → α → Bool}
    (hasym : ∀ x y, lt x y = true → lt y x = false)
    (htrans : ∀ x y z, lt y x = false → lt z y = false → lt z x = false)
    (l : List α) :
    (sortOrd lt l).Pairwise (fun x y => lt y x = false) := by
  induction l with
  | nil => simp [sortOrd]
  | cons a l ih => exact pairwise_insertOrd hasym htrans a ih

theorem insertOrd_of_forall {lt : α → α → Bool} (a : α) {l : List α}
    (h : ∀ y ∈ l, lt y a = false) : insertOrd lt a l = a :: l := by
  cases l with
  | nil => rfl
  | cons b l =>
    have hb := h b (List.mem_cons_self b l)
    simp [insertOrd, hb]

theorem sortOrd_of_pairwise {lt : α → α → Bool} {l : List α}
    (h : l.Pairwise (fun x y => lt y x = false)) : sortOrd lt l = l := by
  induction l with
  | nil => rfl
  | cons a l ih =>
    rcases List.pairwise_cons.mp h with ⟨ha, hl⟩
    simp only [sortOrd, ih hl]
    exact insertOrd_of_forall a ha

/-! ## Claim theorems -/

/-- Claim C1 (code_bug): `createConversation` is claimed to create the
conversation row and its two membership rows as one atomic unit, rolling
back the conversation row when the membership insert fails.  The source
runs the two inserts as independent statements with no transaction: when
the membership insert fails, the call throws (`none`) yet the conversation
row (id 1) stays committed with zero membership rows — the orphan state
the claim says is unreachable. -/
theorem createConversation_no_rollback :
    (createConversationRun dbAB "u-alice" "u-bob" true).2 = none
    ∧ (createConversationRun dbAB "u-alice" "u-bob" true).1.conversations =
        [{ id := 1, name := none, isGroup := false, createdAt := 1000 }]
    ∧ (createConversationRun dbAB "u-alice" "u-bob" true).1.conversationMembers
        = [] :=
  ⟨rfl, rfl, rfl⟩

/-- Claim C7 (code_bug): the store does raise the distinguishable
"User not found" error, but the POST /api/contacts handler's catch-all maps
*every* thrown error — including "User not found" — to status 400, while the
route's declared response schema (shared/routes.ts, `api.contacts.add`)
promises 404 for not-found.  The self-add case is mapped to 400 as claimed. -/
theorem postContacts_notFound_gets_400 :
    addContact dbAB "u-alice" "ghost@example.com"
      = Except.error "User not found"
    ∧ postContactsHandler dbAB "u-alice" "ghost@example.com"
      = (400, some "User not found")
    ∧ postContactsHandler dbAB "u-alice" "Alice@example.com"
      = (400, some "Cannot add yourself as a contact") :=
  ⟨rfl, rfl, rfl⟩

/-- Claim C9 (counterexample): the claim says `searchUsers` matches
case-insensitively and returns an empty result on the empty query.  On a
table holding `alice` (email "Alice@example.com") and `bob`: the empty
query makes `LIKE '%%'` match every row, so the result is not empty; and
the query "alice" — which matches "Alice@example.com" case-insensitively —
returns nothing because Postgres `LIKE` is case-sensitive. -/
theorem searchUsers_counterexample :
    searchUsers dbAB "" ≠ [] ∧ searchUsers dbAB "alice" = [] := by
  exact ⟨by decide, by decide⟩

/-- Claim C5 (counterexample): connection 7 belongs to the sender of `msgHi`
(user "u-alice"); it has joined conversation 1 and is open.  The claim says
the broadcast reaches every open subscriber *other than the sender's own
connection*; the source's `broadcastMessage` has no sender exclusion, so
connection 7 receives the envelope. -/
theorem broadcast_delivers_to_sender :
    publishDeliveries
      { clients := [(1, [7])], connConv := [(7, 1)], openConns := [7] } 1
      { id := 1, conversationId := 1, senderId := "u-alice"
      , content := "hi", createdAt := 1000 }
    = [(7, { type := "message:new"
           , data := { id := 1, conversationId := 1, senderId := "u-alice"
                     , content := "hi", createdAt := 1000 } })] :=
  rfl

/-- Claim C3 (counterexample): the claim says limit and offset are validated
as non-negative integers before use.  The GET messages handler computes
`parseInt(req.query.limit)` with no validation: for the query string "-5"
it hands the negative value -5 straight to `storage.getMessages`. -/
theorem messagesList_limit_unvalidated :
    messagesListLimit (some "-5") = some (-5) ∧ ¬ (0 : Int) ≤ -5 :=
  ⟨rfl, by decide⟩

/-- Claim C4 (counterexample): the claim says the summaries come back sorted
descending by the *spec's* effective timestamp (last message time when a
message exists, else conversation creation time).  In `dbEpoch`,
conversation 1 (created at 5) has a last message at time 0 and
conversation 2 (created at 3) one at time 2.  The comparator's
`lastMessage?.createdAt.getTime() || createdAt.getTime()` treats the 0
timestamp as falsy and falls back to 5, so the code returns
[conversation 1, conversation 2] — spec-effective timestamps [0, 2],
not descending. -/
theorem getConversations_epoch_fallback :
    (getConversations dbEpoch "u-carol").map specEffTs = [0, 2]
    ∧ ¬ ((getConversations dbEpoch "u-carol").map specEffTs).Pairwise
        (fun a b => b ≤ a) := by
  exact ⟨by decide, by decide⟩

/-! ## createConversation / getConversation (C2, C10) -/

theorem find?_user_id {l : List User} {u : String} (h : ∃ x ∈ l, x.id = u) :
    ∃ y, l.find? (fun x => x.id == u) = some y ∧ y.id = u := by
  have hs : (l.find? (fun x => x.id == u)).isSome := by
    rw [List.find?_isSome]
    obtain ⟨x, hx, hxi⟩ := h
    exact ⟨x, hx, by simp [hxi]⟩
  obtain ⟨y, hy⟩ := Option.isSome_iff_exists.mp hs
  refine ⟨y, hy, ?_⟩
  simpa using List.find?_some hy

/-- After `createConversation db u p`, looking the fresh conversation up
returns that conversation together with exactly two member records, the
first resolving `u` and the second resolving `p`. -/
theorem members_after_createConversation (db : DB) (u p : String)
    (hf : FreshIds db)
    (hu : ∃ x ∈ db.users, x.id = u) (hp : ∃ x ∈ db.users, x.id = p) :
    ∃ mu mp,
      getConversation (createConversation db u p).1
          (createConversation db u p).2.id
        = some ((createConversation db u p).2, [mu, mp])
      ∧ mu.id = u ∧ mp.id = p := by
  obtain ⟨yu, hyu, hyuid⟩ := find?_user_id hu
  obtain ⟨yp, hyp, hypid⟩ := find?_user_id hp
  refine ⟨yu, yp, ?_, hyuid, hypid⟩
  have hcid : (createConversation db u p).2.id = db.nextConvId := rfl
  have hconvs : (createConversation db u p).1.conversations
      = db.conversations ++ [(createConversation db u p).2] := rfl
  have hmembers : (createConversation db u p).1.conversationMembers
      = db.conversationMembers ++
        [ { id := db.nextMemberId, conversationId := db.nextConvId
          , userId := u, joinedAt := (db.now + 1) }
        , { id := db.nextMemberId + 1, conversationId := db.nextConvId
          , userId := p, joinedAt := (db.now + 1) } ] := rfl
  have husers : (createConversation db u p).1.users = db.users := rfl
  have hfind : ((createConversation db u p).1.conversations).find?
      (fun c => c.id == (createConversation db u p).2.id)
      = some (createConversation db u p).2 := by
    rw [hconvs, List.find?_append]
    have hnone : db.conversations.find?
        (fun c => c.id == (createConversation db u p).2.id) = none := by
      rw [List.find?_eq_none]
      intro c hc
      have := hf.1 c hc
      simp only [hcid, beq_iff_eq]
      omega
    simp [hnone]
  have hfilter : ((createConversation db u p).1.conversationMembers).filter
      (fun m => m.conversationId == (createConversation db u p).2.id)
      = [ { id := db.nextMemberId, conversationId := db.nextConvId
          , userId := u, joinedAt := (db.now + 1) }
        , { id := db.nextMemberId + 1, conversationId := db.nextConvId
          , userId := p, joinedAt := (db.now + 1) } ] := by
    rw [hmembers, List.filter_append]
    have hnil : db.conversationMembers.filter
        (fun m => m.conversationId == (createConversation db u p).2.id) = [] := by
      rw [List.filter_eq_nil_iff]
      intro m hm
      have := hf.2 m hm
      simp only [hcid, beq_iff_eq]
      omega
    rw [hnil]
    simp [hcid]
  unfold getConversation
  rw [hfind, hfilter]
  simp [husers, List.filterMap, hyu, hyp]

/-- Claim C2 (confirmed): for every database with fresh ids, every valid pair
of distinct existing users `u ≠ p`, `createConversation db u p` followed by
`getConversation` on the returned conversation's id yields that
conversation with member ids exactly `[u, p]` — both present, no one
else. -/
theorem createConversation_then_get_members (db : DB) (u p : String)
    (hf : FreshIds db) (_hne : u ≠ p)
    (hu : ∃ x ∈ db.users, x.id = u) (hp : ∃ x ∈ db.users, x.id = p) :
    ((getConversation (createConversation db u p).1
        (createConversation db u p).2.id).map (fun r => r.2.map User.id))
      = some [u, p] := by
  obtain ⟨mu, mp, hget, hmu, hmp⟩ :=
    members_after_createConversation db u p hf hu hp
  rw [hget]
  simp [hmu, hmp]

/-- Witness for C2 at a concrete database: creating a conversation between
"u-alice" and "u-bob" in `dbAB` and reading it back yields exactly those
two member ids. -/
theorem createConversation_then_get_members_witness :
    ((getConversation (createConversation dbAB "u-alice" "u-bob").1
        (createConversation dbAB "u-alice" "u-bob").2.id).map
        (fun r => r.2.map User.id))
      = some ["u-alice", "u-bob"] :=
  createConversation_then_get_members dbAB "u-alice" "u-bob"
    (by decide) (by decide) (by decide) (by decide)

/-- Claim C10 (confirmed): `createConversation` never checks that the two
participants differ: `createConversation db u u` succeeds, produces a
non-group conversation, and `getConversation` reports the member list
`[u, u]` — a direct conversation with a single distinct member listed
twice. -/
theorem createConversation_self_member_twice (db : DB) (u : String)
    (hf : FreshIds db) (hu : ∃ x ∈ db.users, x.id = u) :
    (createConversation db u u).2.isGroup = false
    ∧ ((getConversation (createConversation db u u).1
        (createConversation db u u).2.id).map (fun r => r.2.map User.id))
      = some [u, u] := by
  refine ⟨rfl, ?_⟩
  obtain ⟨mu, mp, hget, hmu, hmp⟩ :=
    members_after_createConversation db u u hf hu hu
  rw [hget]
  simp [hmu, hmp]

/-- Witness for C10: the self-conversation for "u-alice" in `dbAB` is
non-group and lists "u-alice" twice. -/
theorem createConversation_self_member_twice_witness :
    (createConversation dbAB "u-alice" "u-alice").2.isGroup = false
    ∧ ((getConversation (createConversation dbAB "u-alice" "u-alice").1
        (createConversation dbAB "u-alice" "u-alice").2.id).map
        (fun r => r.2.map User.id))
      = some ["u-alice", "u-alice"] :=
  createConversation_self_member_twice dbAB "u-alice" (by decide) (by decide)

/-! ## addContact idempotence (C8) -/

/-- Claim C8 (confirmed): when `addContact db u x` succeeds, returning
database `db1` and contact `c`, the second identical call returns the very
same contact and the very same database (the existing edge is found and no
row is inserted, no error is raised) — hence `getContacts` after the second
call trivially equals `getContacts` after the first.  Moreover either the
first call inserted the single matching edge (the filter over `db1` has
length 1) or it inserted nothing at all. -/
theorem addContact_idempotent (db : DB) (u x : String) (db1 : DB) (c : User)
    (h : addContact db u x = Except.ok (db1, c)) :
    addContact db1 u x = Except.ok (db1, c)
    ∧ ((db1.contacts.filter
          (fun e => e.userId == u && e.contactId == c.id)).length = 1
        ∨ db1.contacts = db.contacts) := by
  unfold addContact at h
  cases hfind : db.users.find? (fun w => w.email == x) with
  | none =>
    rw [hfind] at h
    exact absurd h (by simp)
  | some contactUser =>
    rw [hfind] at h
    dsimp only at h
    by_cases hid : (contactUser.id == u) = true
    · rw [if_pos hid] at h
      exact absurd h (by simp)
    · rw [if_neg hid] at h
      cases hedge : db.contacts.find?
          (fun e => e.userId == u && e.contactId == contactUser.id) with
      | some e =>
        rw [hedge] at h
        simp only [Except.ok.injEq, Prod.mk.injEq] at h
        obtain ⟨hdb, rfl⟩ := h
        subst hdb
        constructor
        · unfold addContact
          rw [hfind]
          dsimp only
          rw [if_neg hid, hedge]
        · exact Or.inr rfl
      | none =>
        rw [hedge] at h
        simp only [Except.ok.injEq, Prod.mk.injEq] at h
        obtain ⟨hdb, rfl⟩ := h
        have husers : db1.users = db.users := by rw [← hdb]
        have hcontacts : db1.contacts = db.contacts ++
            [{ id := db.nextContactId, userId := u
             , contactId := contactUser.id, createdAt := db.now }] := by
          rw [← hdb]
        have hnomatch : ∀ e ∈ db.contacts,
            ¬ (e.userId == u && e.contactId == contactUser.id) = true :=
          List.find?_eq_none.mp hedge
        constructor
        · unfold addContact
          rw [husers, hfind]
          dsimp only
          rw [if_neg hid, hcontacts, List.find?_append, hedge]
          simp
        · refine Or.inl ?_
          rw [hcontacts, List.filter_append]
          have hfil : db.contacts.filter
              (fun e => e.userId == u && e.contactId == contactUser.id) = [] :=
            List.filter_eq_nil_iff.mpr hnomatch
          rw [hfil]
          simp

/-- Witness for C8: in `dbAB`, adding "bob@example.com" as a contact of
"u-alice" succeeds producing `dbABedge`; the repeated call returns the same
result and the edge exists exactly once. -/
theorem addContact_idempotent_witness :
    addContact dbABedge "u-alice" "bob@example.com" = Except.ok (dbABedge, bob)
    ∧ ((dbABedge.contacts.filter
          (fun e => e.userId == "u-alice" && e.contactId == bob.id)).length = 1
        ∨ dbABedge.contacts = dbAB.contacts) :=
  addContact_idempotent dbAB "u-alice" "bob@example.com" dbABedge bob rfl

/-! ## Amended search behaviour (C9) -/

/-- Claim C9 (amended theorem): `searchUsers` performs a *case-sensitive*
`LIKE`-substring match over email, first name and last name, returns at
most 10 results, every returned user matches the query, and the empty
query — which `LIKE '%%'` matches against every row — returns the first 10
users of the table rather than an empty result.  (The REST surface
independently rejects empty queries via the `min(1)` input schema.) -/
theorem searchUsers_amended (db : DB) (q : String) :
    (searchUsers db q).length ≤ 10
    ∧ (∀ u ∈ searchUsers db q,
        (likeContains u.email q || likeContains u.firstName q ||
          likeContains u.lastName q) = true)
    ∧ searchUsers db "" = db.users.take 10 := by
  refine ⟨?_, ?_, ?_⟩
  · unfold searchUsers
    simp [List.length_take]
  · intro u hu
    unfold searchUsers at hu
    have hmem := List.mem_of_mem_take hu
    exact (List.mem_filter.mp hmem).2
  · unfold searchUsers
    have hall : db.users.filter (fun u =>
        likeContains u.email "" || likeContains u.firstName "" ||
          likeContains u.lastName "") = db.users := by
      apply List.filter_eq_self.mpr
      intro u _
      simp [likeContains]
    rw [hall]

/-- Witness for C9's amended claim at `dbAB` with query "bo". -/
theorem searchUsers_amended_witness :
    (searchUsers dbAB "bo").length ≤ 10
    ∧ (∀ u ∈ searchUsers dbAB "bo",
        (likeContains u.email "bo" || likeContains u.firstName "bo" ||
          likeContains u.lastName "bo") = true)
    ∧ searchUsers dbAB "" = dbAB.users.take 10 :=
  searchUsers_amended dbAB "bo"

/-! ## Amended broadcast behaviour (C5) -/

/-- Claim C5 (amended theorem): `broadcastMessage` hands exactly one
`{type: "message:new", data: message}` envelope to *every* connection in
the conversation's subscriber set whose transport is open — the sender's
own connection included when it is subscribed — while connections whose
transport is closed receive nothing; the subscriber sets themselves are
left untouched (closed connections are not pruned on publish). -/
theorem publishDeliveries_amended (h : Hub) (cid : Nat) (m : Message)
    (hnd : ((assocGet h.clients cid).getD []).Nodup) :
    (∀ c : ConnId,
      ((publishDeliveries h cid m).map Prod.fst).count c =
        if c ∈ (assocGet h.clients cid).getD [] ∧ c ∈ h.openConns
        then 1 else 0)
    ∧ (∀ d ∈ publishDeliveries h cid m,
        d.2 = { type := "message:new", data := m })
    ∧ (hubStep h (.publish cid m)).1 = h := by
  refine ⟨?_, ?_, rfl⟩
  · intro c
    unfold publishDeliveries
    cases hg : assocGet h.clients cid with
    | none => simp
    | some s =>
      dsimp only
      rw [hg] at hnd
      simp only [Option.getD_some] at hnd ⊢
      have hmap : ((s.filter (fun c => h.openConns.contains c)).map
          (fun c => (c, ({ type := "message:new", data := m } : Envelope)))).map
            Prod.fst = s.filter (fun c => h.openConns.contains c) := by
        rw [List.map_map]
        exact List.map_id _
      rw [hmap]
      by_cases hc : c ∈ s.filter (fun c => h.openConns.contains c)
      · have hsplit := List.mem_filter.mp hc
        have hopen : c ∈ h.openConns := by
          have := hsplit.2
          simpa using this
        rw [if_pos ⟨hsplit.1, hopen⟩]
        exact List.count_eq_one_of_mem (hnd.filter _) hc
      · have hcond : ¬ (c ∈ s ∧ c ∈ h.openConns) := by
          intro hand
          exact hc (List.mem_filter.mpr ⟨hand.1, by simpa using hand.2⟩)
        rw [if_neg hcond]
        exact List.count_eq_zero_of_not_mem hc
  · intro d hd
    unfold publishDeliveries at hd
    cases hg : assocGet h.clients cid with
    | none =>
      rw [hg] at hd
      simp at hd
    | some s =>
      rw [hg] at hd
      obtain ⟨x, _, rfl⟩ := List.mem_map.mp hd
      rfl

/-- Witness for C5's amended claim: conversation 1 has subscribers 7
(open) and 8 (closed); each open subscriber is delivered exactly once,
closed 8 receives nothing, and the hub state is unchanged. -/
theorem publishDeliveries_amended_witness :
    (∀ c : ConnId,
      ((publishDeliveries
          { clients := [(1, [7, 8])], connConv := [(7, 1), (8, 1)]
          , openConns := [7] } 1
          { id := 2, conversationId := 1, senderId := "u-alice"
          , content := "yo", createdAt := 1001 }).map Prod.fst).count c =
        if c ∈ (assocGet
            ({ clients := [(1, [7, 8])], connConv := [(7, 1), (8, 1)]
             , openConns := [7] } : Hub).clients 1).getD []
            ∧ c ∈ ({ clients := [(1, [7, 8])], connConv := [(7, 1), (8, 1)]
                   , openConns := [7] } : Hub).openConns
        then 1 else 0)
    ∧ (∀ d ∈ publishDeliveries
          { clients := [(1, [7, 8])], connConv := [(7, 1), (8, 1)]
          , openConns := [7] } 1
          { id := 2, conversationId := 1, senderId := "u-alice"
          , content := "yo", createdAt := 1001 },
        d.2 = { type := "message:new"
              , data := { id := 2, conversationId := 1, senderId := "u-alice"
                        , content := "yo", createdAt := 1001 } })
    ∧ (hubStep
        { clients := [(1, [7, 8])], connConv := [(7, 1), (8, 1)]
        , openConns := [7] }
        (.publish 1
          { id := 2, conversationId := 1, senderId := "u-alice"
          , content := "yo", createdAt := 1001 })).1 =
      { clients := [(1, [7, 8])], connConv := [(7, 1), (8, 1)]
      , openConns := [7] } :=
  publishDeliveries_amended _ 1 _ (by decide)

/-! ## Amended conversation-list behaviour (C4) -/

/-- Claim C4 (amended theorem): `getConversations` returns the empty list
(not an error) when the user belongs to no conversation; otherwise the
summaries are sorted descending by the *code's* effective timestamp
`codeEffTs` — the last message's creation time when a message exists *and
its time is nonzero*, the conversation's creation time otherwise (the
comparator's `||` treats a zero timestamp as falsy) — and every summary
reports `unreadCount = 0`. -/
theorem getConversations_amended (db : DB) (u : String) :
    (getConversations db u).Pairwise (fun a b => codeEffTs b ≤ codeEffTs a)
    ∧ (∀ s ∈ getConversations db u, s.unreadCount = 0)
    ∧ (db.conversationMembers.filter (fun m => m.userId == u) = [] →
        getConversations db u = []) := by
  refine ⟨?_, ?_, ?_⟩
  · simp only [getConversations]
    split
    · exact List.Pairwise.nil
    · exact (pairwise_sortOrd
        (fun x y hxy => by
          simp only [decide_eq_true_eq] at hxy
          simp only [decide_eq_false_iff_not]
          omega)
        (fun x y z hyx hzy => by
          simp only [decide_eq_false_iff_not] at hyx hzy ⊢
          omega)
        _).imp (fun hxy => by
        simp only [decide_eq_false_iff_not] at hxy
        omega)
  · intro s hs
    simp only [getConversations] at hs
    split at hs
    · simp at hs
    · have hs2 := (mem_sortOrd _).mp hs
      obtain ⟨conv, _, rfl⟩ := List.mem_map.mp hs2
      rfl
  · intro hempty
    simp [getConversations, hempty]

/-- Witness for C4's amended claim at `dbEpoch` and user "u-carol". -/
theorem getConversations_amended_witness :
    (getConversations dbEpoch "u-carol").Pairwise
      (fun a b => codeEffTs b ≤ codeEffTs a)
    ∧ (∀ s ∈ getConversations dbEpoch "u-carol", s.unreadCount = 0)
    ∧ (dbEpoch.conversationMembers.filter (fun m => m.userId == "u-carol")
        = [] → getConversations dbEpoch "u-carol" = []) :=
  getConversations_amended dbEpoch "u-carol"

/-! ## Message ordering (C3) -/

theorem createMessage_messages (db : DB) (s : String) (cid : Nat) (c : String) :
    (createMessage db s cid c).1.messages
      = db.messages ++ [(createMessage db s cid c).2] := rfl

theorem createMessage_now (db : DB) (s : String) (cid : Nat) (c : String) :
    (createMessage db s cid c).1.now = db.now + 1 := rfl

theorem createMessage_msg (db : DB) (s : String) (cid : Nat) (c : String) :
    (createMessage db s cid c).2 =
      { id := db.nextMessageId, conversationId := cid, senderId := s
      , content := c, createdAt := db.now } := rfl

theorem clockOK_createMessage {db : DB} (h : ClockOK db) (s : String)
    (cid : Nat) (c : String) : ClockOK (createMessage db s cid c).1 := by
  obtain ⟨h1, h2⟩ := h
  constructor
  · intro m hm
    rw [createMessage_messages] at hm
    rw [createMessage_now]
    rcases List.mem_append.mp hm with hm | hm
    · exact Nat.lt_trans (h1 m hm) (Nat.lt_succ_self _)
    · simp only [List.mem_singleton] at hm
      subst hm
      rw [createMessage_msg]
      exact Nat.lt_succ_self _
  · rw [createMessage_messages, List.pairwise_append]
    refine ⟨h2, by simp, ?_⟩
    intro a ha b hb
    simp only [List.mem_singleton] at hb
    subst hb
    rw [createMessage_msg]
    exact h1 a ha

theorem clockOK_applyCreates {db : DB} (h : ClockOK db) (cid : Nat)
    (cs : List (String × String)) : ClockOK (applyCreates db cid cs) := by
  induction cs generalizing db with
  | nil => exact h
  | cons c cs ih => exact ih (clockOK_createMessage h c.1 cid c.2)

theorem convMessages_applyCreates (db : DB) (cid : Nat)
    (cs : List (String × String)) :
    convMessages (applyCreates db cid cs) cid
      = convMessages db cid ++ createdMsgs db cid cs := by
  induction cs generalizing db with
  | nil => simp [applyCreates, createdMsgs]
  | cons c cs ih =>
    simp only [applyCreates, createdMsgs]
    rw [ih]
    have hstep : convMessages (createMessage db c.1 cid c.2).1 cid
        = convMessages db cid ++ [(createMessage db c.1 cid c.2).2] := by
      unfold convMessages
      rw [createMessage_messages, List.filter_append]
      congr 1
      simp [createMessage_msg]
    rw [hstep, List.append_assoc]
    simp

theorem pairwise_joinSenders {db : DB} {l : List Message}
    (h : l.Pairwise (fun a b => a.createdAt < b.createdAt)) :
    (joinSenders db l).Pairwise
      (fun a b => a.1.createdAt < b.1.createdAt) := by
  unfold joinSenders
  refine List.Pairwise.filterMap _ ?_ h
  intro a a2 hr b hb b2 hb2
  rw [Option.mem_def, Option.map_eq_some'] at hb hb2
  obtain ⟨u1, -, rfl⟩ := hb
  obtain ⟨u2, -, rfl⟩ := hb2
  exact hr

theorem getMessages_eq_join {db : DB} (h : ClockOK db) (cid limit offset : Nat) :
    getMessages db cid limit offset
      = ((joinSenders db (convMessages db cid)).drop offset).take limit := by
  unfold getMessages
  congr 2
  apply sortOrd_of_pairwise
  have hp := @pairwise_joinSenders db _
    ((h.2).filter (fun m => m.conversationId == cid))
  exact hp.imp (fun hab => by
    simp only [decide_eq_false_iff_not]
    omega)

theorem getMessages_sorted (db : DB) (cid limit offset : Nat) :
    ((getMessages db cid limit offset).map
      (fun p => p.1.createdAt)).Pairwise (· ≤ ·) := by
  unfold getMessages
  have hp := @pairwise_sortOrd (Message × User)
    (fun a b => decide (a.1.createdAt < b.1.createdAt))
    (fun x y hxy => by
      simp only [decide_eq_true_eq] at hxy
      simp only [decide_eq_false_iff_not]
      omega)
    (fun x y z hyx hzy => by
      simp only [decide_eq_false_iff_not] at hyx hzy ⊢
      omega)
    (joinSenders db (convMessages db cid))
  have hsub : List.Sublist
      (((sortOrd (fun a b : Message × User =>
          decide (a.1.createdAt < b.1.createdAt))
          (joinSenders db (convMessages db cid))).drop offset).take limit)
      (sortOrd (fun a b : Message × User =>
          decide (a.1.createdAt < b.1.createdAt))
        (joinSenders db (convMessages db cid))) :=
    (List.take_sublist _ _).trans (List.drop_sublist _ _)
  refine List.Pairwise.map _ ?_ (hp.sublist hsub)
  intro a b hab
  simp only [decide_eq_false_iff_not] at hab
  omega

theorem createdMsgs_calls (db : DB) (cid : Nat) (cs : List (String × String)) :
    (createdMsgs db cid cs).map (fun m => (m.senderId, m.content)) = cs := by
  induction cs generalizing db with
  | nil => rfl
  | cons c cs ih =>
    simp only [createdMsgs, List.map_cons, createMessage_msg, ih]

/-- Claim C3 (amended theorem): for every clock-consistent database and every
sequence of `createMessage` calls on a conversation, `getMessages` returns
the page in non-decreasing creation-time order; the returned page is
exactly the paged, sender-joined message table — the prior messages
followed by the created messages in call order, with no reordering; the
created rows carry the calls' senders and contents in call order; and the
handler defaults are limit 50 and offset 0.  (The "validated as
non-negative before use" part of the claim is refuted separately.) -/
theorem getMessages_ordering (db : DB) (cid : Nat)
    (cs : List (String × String)) (limit offset : Nat) (h : ClockOK db) :
    ((getMessages (applyCreates db cid cs) cid limit offset).map
        (fun p => p.1.createdAt)).Pairwise (· ≤ ·)
    ∧ getMessages (applyCreates db cid cs) cid limit offset
      = ((joinSenders (applyCreates db cid cs)
            (convMessages db cid ++ createdMsgs db cid cs)).drop offset).take
          limit
    ∧ (createdMsgs db cid cs).map (fun m => (m.senderId, m.content)) = cs
    ∧ messagesListLimit none = some 50 ∧ messagesListOffset none = some 0 := by
  refine ⟨getMessages_sorted _ _ _ _, ?_, createdMsgs_calls _ _ _, rfl, rfl⟩
  rw [getMessages_eq_join (clockOK_applyCreates h cid cs),
    convMessages_applyCreates]

/-- Witness for C3's amended claim: two messages created on conversation 1
of `dbAB` come back in call order, ascending by creation time. -/
theorem getMessages_ordering_witness :
    ((getMessages (applyCreates dbAB 1 [("u-alice", "hi"), ("u-bob", "yo")])
        1 50 0).map (fun p => p.1.createdAt)).Pairwise (· ≤ ·)
    ∧ getMessages (applyCreates dbAB 1 [("u-alice", "hi"), ("u-bob", "yo")])
        1 50 0
      = ((joinSenders (applyCreates dbAB 1 [("u-alice", "hi"), ("u-bob", "yo")])
            (convMessages dbAB 1 ++
              createdMsgs dbAB 1 [("u-alice", "hi"), ("u-bob", "yo")])).drop
          0).take 50
    ∧ (createdMsgs dbAB 1 [("u-alice", "hi"), ("u-bob", "yo")]).map
        (fun m => (m.senderId, m.content)) = [("u-alice", "hi"), ("u-bob", "yo")]
    ∧ messagesListLimit none = some 50 ∧ messagesListOffset none = some 0 :=
  getMessages_ordering dbAB 1 [("u-alice", "hi"), ("u-bob", "yo")] 50 0
    (by decide)

/-! ## No delivery after disconnect (C6) -/

theorem hubClose_openConns (h : Hub) (c : ConnId) :
    (hubClose h c).openConns = h.openConns.filter (fun x => x != c) := by
  simp only [hubClose]
  split
  · rfl
  · split
    · rfl
    · split
      · rfl
      · rfl

/-- A single hub event neither reopens a closed connection (unless it is
that connection's own fresh `connect`, impossible since handles are not
reused) nor delivers anything to it: `publish` only sends to connections
whose `readyState` is `OPEN`. -/
theorem hubStep_closed (h : Hub) (c : ConnId) (e : Event)
    (hc : c ∉ h.openConns) (he : e ≠ Event.connect c) :
    c ∉ (hubStep h e).1.openConns ∧ ∀ d ∈ (hubStep h e).2, d.1 ≠ c := by
  cases e with
  | connect c2 =>
    refine ⟨?_, by simp [hubStep]⟩
    have hne : c ≠ c2 := fun hcc => he (by rw [hcc])
    simp only [hubStep, hubConnect, setAdd]
    split
    · exact hc
    · intro hmem
      rcases List.mem_append.mp hmem with hmem | hmem
      · exact hc hmem
      · simp only [List.mem_singleton] at hmem
        exact hne hmem
  | join c2 cid =>
    exact ⟨hc, by simp [hubStep]⟩
  | close c2 =>
    refine ⟨?_, by simp [hubStep]⟩
    intro hmem
    have heq : (hubStep h (Event.close c2)).1.openConns
        = h.openConns.filter (fun x => x != c2) := hubClose_openConns h c2
    rw [heq] at hmem
    exact hc (List.mem_of_mem_filter hmem)
  | publish cid m =>
    refine ⟨hc, ?_⟩
    intro d hd
    have hd2 : d ∈ publishDeliveries h cid m := hd
    unfold publishDeliveries at hd2
    cases hg : assocGet h.clients cid with
    | none =>
      rw [hg] at hd2
      simp at hd2
    | some s =>
      rw [hg] at hd2
      obtain ⟨x, hx, rfl⟩ := List.mem_map.mp hd2
      have hxopen : x ∈ h.openConns := by
        have := (List.mem_filter.mp hx).2
        simpa using this
      intro hxc
      exact hc (hxc ▸ hxopen)

/-- Claim C6 (confirmed): a connection that disconnects is never delivered
any later message.  `h` is the hub state at disconnect time — reached after
an arbitrary history, including having joined conversation C and possibly
other conversations afterwards (which leaves a stale entry in C's
subscriber set, since the tracked cleanup id is overwritten).  For every
sequence of later events that does not reuse the connection handle, every
delivery goes to some other connection; in particular no message published
to C after the disconnect reaches `c`.  The `readyState === OPEN` guard on
publish protects even the stale-set case. -/
theorem no_delivery_after_disconnect (h : Hub) (c : ConnId)
    (post : List Event) (hnc : Event.connect c ∉ post) :
    ∀ d ∈ (runEvents (hubClose h c) post).2, d.1 ≠ c := by
  suffices key : ∀ (es : List Event) (h0 : Hub), c ∉ h0.openConns →
      Event.connect c ∉ es → ∀ d ∈ (runEvents h0 es).2, d.1 ≠ c by
    refine key post (hubClose h c) ?_ hnc
    intro hmem
    have heq : (hubClose h c).openConns
        = h.openConns.filter (fun x => x != c) := hubClose_openConns h c
    rw [heq] at hmem
    have := (List.mem_filter.mp hmem).2
    simp at this
  intro es
  induction es with
  | nil =>
    intro h0 _ _ d hd
    simp [runEvents] at hd
  | cons e es ih =>
    intro h0 hc0 hne d hd
    have hene : e ≠ Event.connect c := by
      intro heq
      refine hne ?_
      rw [← heq]
      exact List.mem_cons_self e es
    obtain ⟨hc1, hdel⟩ := hubStep_closed h0 c e hc0 hene
    simp only [runEvents, List.mem_append] at hd
    rcases hd with hd | hd
    · exact hdel d hd
    · exact ih (hubStep h0 e).1 hc1
        (fun hm => hne (List.mem_cons_of_mem e hm)) d hd

/-- Witness for C6: connection 7 joined conversation 1, then conversation 2
(overwriting its tracked cleanup id), then disconnected; it is left stale
in conversation 1's subscriber set, yet a publish to conversation 1 after
the disconnect delivers nothing to it. -/
theorem no_delivery_after_disconnect_witness :
    (∀ d ∈ (runEvents
        (hubClose { clients := [(1, [7]), (2, [7])]
                  , connConv := [(7, 2)], openConns := [7] } 7)
        [Event.publish 1 { id := 3, conversationId := 1, senderId := "u-bob"
                         , content := "late", createdAt := 1002 }]).2,
      d.1 ≠ 7)
    ∧ (runEvents
        (hubClose { clients := [(1, [7]), (2, [7])]
                  , connConv := [(7, 2)], openConns := [7] } 7)
        [Event.publish 1 { id := 3, conversationId := 1, senderId := "u-bob"
                         , content := "late", createdAt := 1002 }]).2 = [] :=
  ⟨no_delivery_after_disconnect _ 7 _ (by decide), rfl⟩

end TeleClone
